import Mathlib

/-!
Verification of the test-runner reporting pipeline of this repository
(`runner/tasks.py`): the summary-line classifier and parser, the result
extractor, the report renderer, the selector computation, the version
lookup and the entry guard of the full run task.

Modelling conventions:
  * Python strings are modelled as `List Char`.
  * Python floats are modelled as exact rationals, represented as
    unreduced integer fractions; the rounding performed by `round`/format
    `.0%`/`timedelta` is round-half-to-even, modelled exactly on those
    fractions.
  * `float(...)` (used via `_safe_cast(val, float)`) is modelled in
    full: optional surrounding whitespace, optional sign, then either one
    of the case-insensitive words `inf`/`infinity`/`nan` or a decimal
    mantissa with optional PEP-515 underscore separators and an optional
    decimal exponent.  The resulting value is finite, an infinity or NaN.
  * the `timedelta(seconds=...)` construction in `_parse_log_line` is
    unguarded, so its exceptions are modelled and propagated: it raises
    `OverflowError` on infinities and on finite values whose normalised
    day count exceeds 999999999 in magnitude, and `ValueError` on NaN;
    the parser and the extractor therefore return in an `Except` monad.
  * `\d` of the patterns is modelled as an ASCII digit.
  * each regular expression of the source is hand-compiled to a
    deterministic function implementing Python's leftmost, greedy,
    backtracking `re.match` semantics (`.` does not match a newline;
    preferred alternatives are tried first and later pattern failure
    backtracks into earlier optional parts).
-/

namespace DockerMimir

/-- Python string fragment: a list of characters. -/
abbrev Chars := List Char

/-- Boolean prefix test on character lists (model of `str.startswith` used
to express anchored literal-matching steps of the compiled patterns). -/
def startsW : Chars → Chars → Bool
  | [], _ => true
  | _ :: _, [] => false
  | p :: ps, c :: cs => p == c && startsW ps cs

/-- Whitespace stripped by Python `float()`. -/
def isPySpace (c : Char) : Bool :=
  c == ' ' || c == '\t' || c == '\n' || c == '\r' || c == '\x0c' || c == '\x0b'

/-- Value of a string of decimal digits (model of `int(...)` on the digit
strings captured by the patterns; leading zeros allowed). -/
def digitsVal (ds : Chars) : Nat :=
  ds.foldl (fun a c => a * 10 + (c.toNat - '0'.toNat)) 0

/-! ### RESULT_LINE_PATTERN

`RESULT_LINE_PATTERN = re.compile("===+.*===+")`, used via `.match`:
the line matches iff it starts with at least three `=` and, reachable from
there without crossing a newline, another run of three `=` occurs. -/

/-- Search for a literal `===` at the current position or, as long as no
newline intervenes, further right (the `.*===+` part of the pattern). -/
def bannerTail : Chars → Bool
  | [] => false
  | c :: rest => startsW ('=' :: '=' :: '=' :: []) (c :: rest) || (c != '\n' && bannerTail rest)

/-- Model of `RESULT_LINE_PATTERN.match(line)` viewed as a predicate. -/
def result_line_match (s : Chars) : Bool :=
  startsW ('=' :: '=' :: '=' :: []) s && bannerTail (s.drop 3)

/-! ### RESULT_PATTERN

`RESULT_PATTERN = re.compile`
`("===+( (?P<failed>\d+) failed)?,? ((?P<success>\d+) passed)?.*in (?P<time>.*) seconds.*")`

Hand-compilation, anchored at the start (`re.match`):
  * `===+` must consume the whole leading run of `=` (a shorter choice
    leaves `=` in front, on which every following alternative fails);
  * each optional group is tried present-first, and failure of the rest of
    the pattern backtracks into it;
  * `\d+` greedily takes the maximal digit run (a shorter run leaves a
    digit in front of the following literal space, which cannot match);
  * `.*in (?P<time>.*) seconds.*`: the first `.*` prefers the rightmost
    `in ` from which the rest matches, the time group then extends to the
    last following ` seconds`, newlines being impassable for `.*`;
    the trailing `.*` always matches.  -/

/-- Captured groups of `RESULT_PATTERN`. -/
structure MatchGroups where
  failed : Option Chars
  success : Option Chars
  time : Chars
deriving DecidableEq

/-- Compiled `(?P<time>.*) seconds.*`: longest newline-free prefix that is
followed by the literal ` seconds`. -/
def inMatch : Chars → Option Chars
  | [] => none
  | c :: rest =>
    match (if c == '\n' then none else (inMatch rest).map (fun t => c :: t)) with
    | some t => some t
    | none =>
      if startsW (' ' :: 's' :: 'e' :: 'c' :: 'o' :: 'n' :: 'd' :: 's' :: []) (c :: rest) then
        some []
      else none

/-- Compiled `.*in (?P<time>.*) seconds.*`: the rightmost newline-reachable
`in ` from which `inMatch` succeeds. -/
def tailMatch : Chars → Option Chars
  | [] => none
  | c :: rest =>
    match (if c == '\n' then none else tailMatch rest) with
    | some t => some t
    | none =>
      if startsW ('i' :: 'n' :: ' ' :: []) (c :: rest) then inMatch (rest.drop 2)
      else none

/-- Compiled `((?P<success>\d+) passed)?.*in (?P<time>.*) seconds.*`,
applied after the mandatory space of the pattern. -/
def afterSpace (r : Chars) : Option (Option Chars × Chars) :=
  let ds := r.takeWhile (fun c => c.isDigit)
  let rest := r.dropWhile (fun c => c.isDigit)
  let present : Option (Option Chars × Chars) :=
    if ds.isEmpty then none
    else if startsW (' ' :: 'p' :: 'a' :: 's' :: 's' :: 'e' :: 'd' :: []) rest then
      (tailMatch (rest.drop 7)).map (fun t => (some ds, t))
    else none
  match present with
  | some res => some res
  | none => (tailMatch r).map (fun t => ((none : Option Chars), t))

/-- Compiled `,? ((?P<success>\d+) passed)?...`: an optional comma followed
by the mandatory space.  When the comma is consumed and the rest fails, the
comma-absent alternative would have to match the space against `,` and
fails as well, so no fallback remains. -/
def afterFailed (r : Chars) : Option (Option Chars × Chars) :=
  if startsW (',' :: ' ' :: []) r then afterSpace (r.drop 2)
  else if startsW (' ' :: []) r then afterSpace (r.drop 1)
  else none

/-- Compiled `( (?P<failed>\d+) failed)?` followed by the rest of the
pattern; tried present-first with backtracking to the absent alternative. -/
def afterEquals (r : Chars) : Option MatchGroups :=
  let absent : Option MatchGroups :=
    (afterFailed r).map (fun p => ⟨none, p.1, p.2⟩)
  let present : Option MatchGroups :=
    if startsW (' ' :: []) r then
      let rest := r.drop 1
      let ds := rest.takeWhile (fun c => c.isDigit)
      let rest' := rest.dropWhile (fun c => c.isDigit)
      if ds.isEmpty then none
      else if startsW (' ' :: 'f' :: 'a' :: 'i' :: 'l' :: 'e' :: 'd' :: []) rest' then
        (afterFailed (rest'.drop 7)).map (fun p => ⟨some ds, p.1, p.2⟩)
      else none
    else none
  match present with
  | some g => some g
  | none => absent

/-- Model of `RESULT_PATTERN.match(line)`: `none` when the pattern does not
match, otherwise the captured groups. -/
def result_pattern_match (s : Chars) : Option MatchGroups :=
  let eqs := s.takeWhile (fun c => c == '=')
  let rest := s.dropWhile (fun c => c == '=')
  if 3 ≤ eqs.length then afterEquals rest else none

/-! ### Python numeric helpers

Python floats are modelled as exact values: a finite float is an unreduced
integer fraction, and the special values the `float()` constructor also
accepts — signed infinities and NaN — are explicit constructors, so that
the `OverflowError`/`ValueError` the program raises on them is modelled
rather than collapsed.  Rounding is round-half-to-even, the rounding
Python applies in `round`, in the `%`-format with precision 0 and in the
`timedelta` microsecond conversion. -/

/-- Exception kinds raised by the modelled Python code. -/
inductive PyExc where
  | overflowError
  | valueError
deriving DecidableEq

/-- Value of a parsed float: a finite fraction `num / den` (`den` a power
of ten by construction, never zero), a signed infinity, or NaN. -/
inductive PyFloat where
  | finite (num : Int) (den : Nat)
  | infinite (neg : Bool)
  | nan
deriving DecidableEq

/-- Negation of a float value (applied for a leading minus sign; the sign
of an infinity or NaN literal is recorded before this point). -/
def PyFloat.negate : PyFloat → PyFloat
  | .finite n d => .finite (-n) d
  | x => x

/-- Round `n / d` (`d` positive) half-to-even to an integer. -/
def roundHalfEvenFrac (n : Int) (d : Nat) : Int :=
  let f := Int.ediv n d
  let r := n - f * d
  if 2 * r < (d : Int) then f
  else if (d : Int) < 2 * r then f + 1
  else if f % 2 == 0 then f else f + 1

/-- Greedy scan of a PEP-515 digit run: decimal digits with single
underscores strictly between digits.  Returns the consumed prefix
(underscores included) and the rest; an underscore not followed by a digit
is not consumed. -/
def digitsUAux : Chars → Chars × Chars
  | [] => ([], [])
  | c :: rest =>
    if c.isDigit then
      let p := digitsUAux rest
      (c :: p.1, p.2)
    else if c == '_' then
      match rest with
      | d :: rest' =>
        if d.isDigit then
          let p := digitsUAux rest'
          (c :: d :: p.1, p.2)
        else ([], c :: rest)
      | [] => ([], c :: rest)
    else ([], c :: rest)

/-- A digit run must begin with a digit (so `_1` is rejected). -/
def digitsU (s : Chars) : Option (Chars × Chars) :=
  match s with
  | c :: _ => if c.isDigit then some (digitsUAux s) else none
  | [] => none

/-- Numeric value of a consumed digit run, underscores removed. -/
def uVal (pre : Chars) : Nat :=
  digitsVal (pre.filter (fun c => c != '\x5f'))

/-- Number of actual digits of a consumed digit run. -/
def uLen (pre : Chars) : Nat :=
  (pre.filter (fun c => c != '\x5f')).length

/-- Optional exponent part of a decimal literal, applied to the mantissa
fraction `mn / md`; the exponent digits may carry underscores and must
consume the whole rest of the string. -/
def parseExpPart (mn : Int) (md : Nat) (r : Chars) : Option PyFloat :=
  match r with
  | [] => some (.finite mn md)
  | e :: r' =>
    if e == 'e' || e == 'E' then
      let (neg, r'') : Bool × Chars :=
        if startsW ('+' :: []) r' then (false, r'.drop 1)
        else if startsW ('-' :: []) r' then (true, r'.drop 1)
        else (false, r')
      match digitsU r'' with
      | some (pre, rest) =>
        if rest.isEmpty then
          some (if neg then .finite mn (md * 10 ^ uVal pre)
            else .finite (mn * ((10 ^ uVal pre : Nat) : Int)) md)
        else none
      | none => none
    else none

/-- Unsigned decimal literal: a digit run with an optional fractional part
(at least one digit on one side of the dot; the fractional digits may be
empty after the dot, as in `1.`), then an optional exponent. -/
def parseUFloat (s : Chars) : Option PyFloat :=
  match digitsU s with
  | some (ip, r₁) =>
    if startsW ('.' :: []) r₁ then
      match digitsU (r₁.drop 1) with
      | some (fp, r₃) =>
        parseExpPart ((uVal ip : Int) * ((10 ^ uLen fp : Nat) : Int) + (uVal fp : Int))
          (10 ^ uLen fp) r₃
      | none => parseExpPart (uVal ip : Int) 1 (r₁.drop 1)
    else parseExpPart (uVal ip : Int) 1 r₁
  | none =>
    if startsW ('.' :: []) s then
      match digitsU (s.drop 1) with
      | some (fp, r₃) => parseExpPart (uVal fp : Int) (10 ^ uLen fp) r₃
      | none => none
    else none

/-- Case-insensitive comparison of a string against a lowercase word. -/
def lowerIs : Chars → Chars → Bool
  | [], [] => true
  | c :: cs, w :: ws => (c.toLower == w) && lowerIs cs ws
  | _, _ => false

/-- Model of Python `float(s)`, as used through `_safe_cast(val, float)`:
surrounding whitespace is stripped, an optional sign precedes either one
of the words `inf`/`infinity`/`nan` (case-insensitive) or an unsigned
decimal literal with optional PEP-515 underscores; anything else is
unparseable and the cast yields `None`.  Digits are modelled as ASCII. -/
def pyFloat (s : Chars) : Option PyFloat :=
  let t := ((s.dropWhile isPySpace).reverse.dropWhile isPySpace).reverse
  let (neg, v) : Bool × Chars :=
    if startsW ('+' :: []) t then (false, t.drop 1)
    else if startsW ('-' :: []) t then (true, t.drop 1)
    else (false, t)
  if lowerIs v ('i' :: 'n' :: 'f' :: []) ||
      lowerIs v ('i' :: 'n' :: 'f' :: 'i' :: 'n' :: 'i' :: 't' :: 'y' :: []) then
    some (.infinite neg)
  else if lowerIs v ('n' :: 'a' :: 'n' :: []) then some .nan
  else if neg then (parseUFloat v).map PyFloat.negate
  else parseUFloat v

/-- Python truthiness of a float (`if time:`): finite zero is falsy,
infinities and NaN are truthy. -/
def pyFloatTruthy : PyFloat → Bool
  | .finite n _ => n != 0
  | .infinite _ => true
  | .nan => true

/-- Normalised day count of `timedelta(seconds = n/d)`: microseconds
rounded half-even, then floor-divided into days. -/
def timedeltaDays (n : Int) (d : Nat) : Int :=
  Int.ediv (roundHalfEvenFrac (n * 1000000) d) 86400000000

/-- The `timedelta` constructor accepts only day counts of magnitude at
most 999999999 and raises `OverflowError` beyond that. -/
def timedeltaInRange (n : Int) (d : Nat) : Bool :=
  -999999999 ≤ timedeltaDays n d && timedeltaDays n d ≤ 999999999

/-- Left-pad a decimal rendering to two digits (minute/second fields of
`str(timedelta)`). -/
def pad2 (n : Nat) : Chars :=
  let d := (Nat.repr n).data
  if d.length < 2 then '0' :: d else d

/-- Left-pad a decimal rendering to six digits (microsecond field of
`str(timedelta)`). -/
def pad6 (n : Nat) : Chars :=
  let d := (Nat.repr n).data
  List.replicate (6 - d.length) '0' ++ d

/-- Model of `str(td)` for a successfully CONSTRUCTED
`td = timedelta(seconds = n/d)` (so only applied under `timedeltaInRange`;
the constructor itself can raise, see `durationStr`): microseconds rounded
half-even, normalised to days, seconds in `[0, 86400)` and microseconds in
`[0, 10^6)` (floor division, as in Python), rendered as
`[D day(s), ]H:MM:SS[.ffffff]`. -/
def strTimedelta (n : Int) (d : Nat) : Chars :=
  let us := roundHalfEvenFrac (n * 1000000) d
  let days := Int.ediv us 86400000000
  let remN := (Int.emod us 86400000000).toNat
  let micro := remN % 1000000
  let secs := remN / 1000000
  let h := secs / 3600
  let m := secs % 3600 / 60
  let s := secs % 60
  let core := (Nat.repr h).data ++ ':' :: pad2 m ++ ':' :: pad2 s
  let core := if micro == 0 then core else core ++ '.' :: pad6 micro
  if days == 0 then core
  else
    (Int.repr days).data ++ (' ' :: 'd' :: 'a' :: 'y' :: []) ++
      (if days == 1 || days == -1 then [] else ['s']) ++ (',' :: ' ' :: []) ++ core

/-- Model of `str(datetime.timedelta(seconds=time) if time else None)`,
the duration step of `_parse_log_line`, including the exceptions of the
unguarded `timedelta` constructor: `None` when the cast failed or the
value is falsy (zero); `OverflowError` for infinities and for finite
values whose day count exceeds the `timedelta` bound; `ValueError` for
NaN; otherwise the rendered duration. -/
def durationStr (time : Option PyFloat) : Except PyExc Chars :=
  match time with
  | none => .ok ('N' :: 'o' :: 'n' :: 'e' :: [])
  | some q =>
    if pyFloatTruthy q then
      match q with
      | .finite n d =>
        if timedeltaInRange n d then .ok (strTimedelta n d) else .error .overflowError
      | .infinite _ => .error .overflowError
      | .nan => .error .valueError
    else .ok ('N' :: 'o' :: 'n' :: 'e' :: [])

/-- Model of the format `f"{p/t:.0%}"` for the ratio of two counts
(`t` nonzero): `p/t` times 100 — that is `100 p / t` exactly — rounded
half-even to a whole number and rendered with a trailing percent sign. -/
def pctString (p t : Nat) : Chars :=
  (Int.repr (roundHalfEvenFrac ((p : Int) * 100) t)).data ++ ['%']

/-! ### Python values and dictionaries -/

/-- Value stored in a result dictionary: Python `int` or `str`. -/
inductive PyVal where
  | int (n : Int)
  | str (s : Chars)
deriving DecidableEq

/-- Model of `str(v)`. -/
def pyStr : PyVal → Chars
  | .int n => (Int.repr n).data
  | .str s => s

/-- Python truthiness of a value: zero and the empty string are falsy. -/
def pyTruthy : PyVal → Bool
  | .int n => n != 0
  | .str s => !s.isEmpty

/-- Result dictionaries: insertion-ordered string-keyed maps. -/
abbrev Dict := List (String × PyVal)

/-- Model of `d.get(key)` / `d[key]` (first binding wins; our dictionaries
carry no duplicate keys). -/
def dget (d : Dict) (k : String) : Option PyVal :=
  match d with
  | [] => none
  | (k', v) :: rest => if k' == k then some v else dget rest k

/-- Model of `base.update(upd)`: values of existing keys are replaced in
place, new keys are appended in order. -/
def dupdate (base upd : Dict) : Dict :=
  (base.map (fun kv =>
    match dget upd kv.1 with
    | some v' => (kv.1, v')
    | none => kv)) ++
    upd.filter (fun kv => (dget base kv.1).isNone)

/-! ### Summary parser: `_parse_log_line` -/

/-- Model of `_parse_log_line(line)` (the Summary Parser).  When
`RESULT_PATTERN` does not match, the result is the empty dictionary.
Otherwise: an absent group counts 0; the duration step
`str(timedelta(seconds=time) if time else None)` yields the string `None`
when the seconds text fails the float cast or parses to zero, raises
`OverflowError`/`ValueError` (propagated, the construction is unguarded)
for infinite, NaN or out-of-range seconds, and the rendered duration
otherwise; `ratio` is `success/total` formatted as a whole percent, with
the integer 0 formatted when `total` is zero. -/
def parse_log_line (line : Chars) : Except PyExc Dict :=
  match result_pattern_match line with
  | none => .ok []
  | some g =>
    let failed : Nat := match g.failed with | some ds => digitsVal ds | none => 0
    let success : Nat := match g.success with | some ds => digitsVal ds | none => 0
    match durationStr (pyFloat g.time) with
    | .error e => .error e
    | .ok durStr =>
      let total := failed + success
      let ratioStr : Chars :=
        if total == 0 then '0' :: '%' :: [] else pctString success total
      .ok [("failed", .int failed), ("total", .int total),
        ("duration", .str durStr), ("ratio", .str ratioStr)]

/-- The parser logs `impossible to parse results` exactly when
`RESULT_PATTERN` fails to match the line. -/
def parse_error_logged (line : Chars) : Bool :=
  (result_pattern_match line).isNone

/-! ### Result extractor: `_get_results` -/

/-- Model of `pytest_logs.split("\n")`: split at every newline, the empty
string splitting to one empty piece. -/
def splitNl : Chars → List Chars
  | [] => [[]]
  | c :: rest =>
    match splitNl rest with
    | [] => [[]]
    | h :: t => if c == '\n' then [] :: h :: t else (c :: h) :: t

/-- Loop body of `_get_results`: scan the given (already reversed) lines,
skip non-banner lines, and on the first banner line merge its parse into
the base record and return immediately; an exception raised by the parser
on that line propagates. -/
def get_results_go (base : Dict) : List Chars → Except PyExc Dict
  | [] => .ok base
  | l :: ls =>
    if result_line_match l then (parse_log_line l).map (fun d => dupdate base d)
    else get_results_go base ls

/-- Model of `_get_results(region, category, pytest_logs)` (the Result
Extractor). -/
def get_results (region category : Chars) (pytest_logs : Chars) : Except PyExc Dict :=
  get_results_go [("region", .str region), ("category", .str category)]
    (splitNl pytest_logs).reverse

/-! ### Report renderer: `_pretty_print` -/

/-- One step of the `lengths` loop of `_pretty_print`: if the rendered
value of `key` in `d` (`str(d.get(key, ""))`) is strictly longer than the
current width, widen to that length plus two surrounding spaces. -/
def widthStep (key : String) (acc : Nat) (d : Dict) : Nat :=
  let i := (pyStr ((dget d key).getD (.str []))).length
  if acc < i then i + 2 else acc

/-- Column width computed by the two `lengths` loops of `_pretty_print`:
start from the header length plus two surrounding spaces and fold the
widening step over the records. -/
def colWidth (dicts : List Dict) (key : String) : Nat :=
  dicts.foldl (widthStep key) (key.length + 2)

/-- Model of the format specification `^w` (centering): pad with spaces to
width `w`, the extra space going to the right; never truncate. -/
def pyCenter (s : Chars) (w : Nat) : Chars :=
  if w ≤ s.length then s
  else
    let pad := w - s.length
    List.replicate (pad / 2) ' ' ++ s ++ List.replicate (pad - pad / 2) ' '

/-- Cell value of a record row: `d.get(key) or "_"`, so a missing key and
a present-but-falsy value both render as an underscore. -/
def rowVal (d : Dict) (key : String) : PyVal :=
  match dget d key with
  | some v => if pyTruthy v then v else .str ('_' :: [])
  | none => .str ('_' :: [])

/-- Header line of the table: each column name centered in its width,
cells joined by bars. -/
def header_row (dicts : List Dict) (keys : List String) : Chars :=
  List.intercalate ('|' :: []) (keys.map (fun k => pyCenter k.data (colWidth dicts k)))

/-- Separator line of the table: a run of dashes of each column width. -/
def sep_row (dicts : List Dict) (keys : List String) : Chars :=
  List.intercalate ('|' :: [])
    (keys.map (fun k => pyCenter (List.replicate (colWidth dicts k) '-') (colWidth dicts k)))

/-- Rendered row of one record. -/
def row_line (dicts : List Dict) (keys : List String) (d : Dict) : Chars :=
  List.intercalate ('|' :: [])
    (keys.map (fun k => pyCenter (pyStr (rowVal d k)) (colWidth dicts k)))

/-- Model of `_pretty_print(dicts, keys)` (the Report Renderer): the empty
list for zero records; otherwise `out` starts as `[""]`, the header line
and the separator line are appended, and the loop over the records appends
one rendered line per record. -/
def pretty_print (dicts : List Dict) (keys : List String) : List Chars :=
  if dicts.isEmpty then []
  else
    dicts.foldl (fun out d => out ++ row_line dicts keys d :: [])
      (([] : Chars) :: [] ++ header_row dicts keys :: [] ++ sep_row dicts keys :: [])

/-- Removal of a key from a record (used to compare a record having
`failed = 0` with the same record lacking the field altogether). -/
def dremove (d : Dict) (k : String) : Dict :=
  d.filter (fun kv => kv.1 != k)

/-! ### Selector computation: `_get_remaining_tests` and `run_pytest` -/

/-- A category of the configuration: a name, an optional selector
expression, and the optional catch-remaining marker. -/
structure TestCategory where
  name : Chars
  selector : Option Chars
  remaining_tests : Bool

/-- Model of `sep.join(parts)`. -/
def strJoin (sep : Chars) : List Chars → Chars
  | [] => []
  | x :: xs => xs.foldl (fun acc y => acc ++ sep ++ y) x

/-- Model of `_get_remaining_tests(ctx)`: take the selector of every
category that has one, negate each, and join with `and`. -/
def get_remaining_tests (categories : List TestCategory) : Chars :=
  strJoin (' ' :: 'a' :: 'n' :: 'd' :: ' ' :: [])
    ((categories.filterMap (fun c => c.selector)).map
      (fun s => ('n' :: 'o' :: 't' :: ' ' :: []) ++ s))

/-- Selector chosen by `run_pytest` for a category (lines 129-132 of
`runner/tasks.py`): the remaining-tests computation when the category is
marked, the category's own selector otherwise (`none` models the KeyError
raised when an unmarked category lacks a selector). -/
def selector_for (categories : List TestCategory) (c : TestCategory) : Option Chars :=
  if c.remaining_tests then some (get_remaining_tests categories) else c.selector

/-- Modelled from the spec: the selector the specification ascribes to a
catch-remaining category at position `i` — the conjunction of `not S` over
every OTHER category's selector.  Stated for comparison with
`get_remaining_tests`, which the source computes from all categories. -/
def spec_remaining_selector (categories : List TestCategory) (i : Nat) : Chars :=
  strJoin (' ' :: 'a' :: 'n' :: 'd' :: ' ' :: [])
    (((categories.eraseIdx i).filterMap (fun c => c.selector)).map
      (fun s => ('n' :: 'o' :: 't' :: ' ' :: []) ++ s))

/-! ### Version lookup: `_get_version` -/

/-- Substring test (model of Python `sub in s`). -/
def containsSub (s sub : Chars) : Bool :=
  match s with
  | [] => startsW sub []
  | _ :: rest => startsW sub s || containsSub rest sub

/-- Fuelled body of `pyReplace` (structural recursion so that concrete
evaluation reduces). -/
def pyReplaceAux : Nat → Chars → Chars → Chars → Chars
  | 0, s, _, _ => s
  | _ + 1, [], _, _ => []
  | fuel + 1, c :: rest, pat, repl =>
    if pat.isEmpty then c :: rest
    else if startsW pat (c :: rest) then
      repl ++ pyReplaceAux fuel (List.drop pat.length (c :: rest)) pat repl
    else c :: pyReplaceAux fuel rest pat repl

/-- Model of `s.replace(pat, repl)` for a non-empty pattern: leftmost,
non-overlapping, all occurrences. -/
def pyReplace (s pat repl : Chars) : Chars :=
  pyReplaceAux s.length s pat repl

/-- Response of the status endpoint: HTTP status code, whether the body is
valid JSON, and the value of its `version` field if any. -/
structure HttpResp where
  status : Nat
  jsonOk : Bool
  versionField : Option Chars

/-- Outcome of `requests.get`: either the call raises (e.g. the endpoint
is unreachable) or it returns a response. -/
inductive HttpOutcome where
  | raised
  | ok (resp : HttpResp)

/-- Outcome of `_get_version`: either an exception escapes the function,
or it returns a version value (possibly `None`). -/
inductive VersionOutcome where
  | exn
  | value (v : Option Chars)
deriving DecidableEq

/-- The literal `/autocomplete`. -/
def autocompleteChars : Chars :=
  '/' :: 'a' :: 'u' :: 't' :: 'o' :: 'c' :: 'o' :: 'm' :: 'p' :: 'l' :: 'e' :: 't' :: 'e' :: []

/-- The literal `/status`. -/
def statusChars : Chars :=
  '/' :: 's' :: 't' :: 'a' :: 't' :: 'u' :: 's' :: []

/-- Model of `_get_version(url)`, the HTTP world abstracted as `http`.
The source calls `requests.get` OUTSIDE its `try` block: an exception from
the call itself (unreachable endpoint) escapes the function, while
`raise_for_status` (4xx/5xx) and a malformed JSON body are caught, logged
as a warning and turned into `None`. -/
def get_version (url : Chars) (http : Chars → HttpOutcome) : VersionOutcome :=
  if !containsSub url autocompleteChars then .value none
  else
    match http (pyReplace url autocompleteChars statusChars) with
    | .raised => .exn
    | .ok resp =>
      if 400 ≤ resp.status && resp.status < 600 then .value none
      else if !resp.jsonOk then .value none
      else .value resp.versionField

/-! ### Entry of the full run task: `run_all` and `_init_output_dir` -/

/-- The configuration slice `run_all` touches before any region runs. -/
structure RunCtx where
  output_dir : Option Chars
  base_output_dir : Chars
  url : Option Chars
deriving DecidableEq

/-- Observable side effect of the modelled prefix of `run_all`. -/
inductive RunEffect where
  | mkdir (dir : Chars)
deriving DecidableEq

/-- Model of `_init_output_dir(ctx, test_name)`: when the context has no
output directory yet, create a timestamp-qualified directory on disk and
record it in the context; otherwise reuse it with no side effect. -/
def init_output_dir (ctx : RunCtx) (test_name timestamp : Chars) : RunCtx × List RunEffect :=
  match ctx.output_dir with
  | some _ => (ctx, [])
  | none =>
    let dir := ctx.base_output_dir ++ '/' :: test_name ++ '_' :: timestamp
    ({ ctx with output_dir := some dir }, [RunEffect.mkdir dir])

/-- Exception raised by the modelled prefix of `run_all`. -/
inductive RunErr where
  | attribute_error
  | no_url_error
deriving DecidableEq

/-- Outcome of the modelled prefix of `run_all`: an exception together
with the side effects already performed, or the context and url the task
proceeds with. -/
inductive RunAllOutcome where
  | raised (e : RunErr) (effects : List RunEffect)
  | proceeding (ctx : RunCtx) (url : Chars) (effects : List RunEffect)
deriving DecidableEq

/-- Model of lines 188-193 of `run_all(ctx, url, ...)`: first
`_init_output_dir(ctx, name)` runs, then `url = url or ctx.url` (an
`AttributeError` when the argument is falsy and the configuration has no
`url` key), then `if not url: raise Exception("no url provided")`. -/
def run_all_start (ctx : RunCtx) (urlArg : Option Chars) (name timestamp : Chars) :
    RunAllOutcome :=
  let (ctx', effs) := init_output_dir ctx name timestamp
  let urlVal : Option Chars :=
    match urlArg with
    | some u => if u.isEmpty then ctx'.url else some u
    | none => ctx'.url
  match urlVal with
  | none => .raised .attribute_error effs
  | some u =>
    if u.isEmpty then .raised .no_url_error effs
    else .proceeding ctx' u effs

/-! ## Helper lemmas -/

theorem widthStep_le (key : String) (acc : Nat) (d : Dict) : acc ≤ widthStep key acc d := by
  unfold widthStep
  dsimp only
  split <;> omega

theorem foldl_widthStep_le (key : String) :
    ∀ (l : List Dict) (acc : Nat), acc ≤ l.foldl (widthStep key) acc
  | [], _ => Nat.le_refl _
  | d :: l, acc => Nat.le_trans (widthStep_le key acc d) (foldl_widthStep_le key l _)

theorem colWidth_ge (dicts : List Dict) (key : String) :
    key.length + 2 ≤ colWidth dicts key :=
  foldl_widthStep_le key dicts _

theorem foldl_append_rows {α β : Type} (f : α → β) :
    ∀ (l : List α) (out : List β), l.foldl (fun o d => o ++ f d :: []) out = out ++ l.map f
  | [], out => by simp
  | d :: l, out => by
    simp only [List.foldl_cons, foldl_append_rows f l, List.map_cons]
    simp [List.append_assoc]

theorem filterMap_selector_eraseIdx :
    ∀ (cats : List TestCategory) (i : Nat) (c : TestCategory), cats[i]? = some c →
      c.selector = none →
      (cats.eraseIdx i).filterMap (fun x => x.selector) = cats.filterMap (fun x => x.selector)
  | [], _, _, h, _ => by simp at h
  | x :: l, 0, c, h, hsel => by
    simp only [List.getElem?_cons_zero, Option.some.injEq] at h
    subst h
    simp [List.eraseIdx, List.filterMap_cons, hsel]
  | x :: l, i + 1, c, h, hsel => by
    simp only [List.getElem?_cons_succ] at h
    simp [List.eraseIdx, List.filterMap_cons,
      filterMap_selector_eraseIdx l i c h hsel]

/-! ## Claims -/

/-- C5 (code bug): `_get_version` calls `requests.get` outside its `try`
block, so an unreachable status endpoint makes the exception escape the
function (and `run_all`, which calls it unguarded), while the claim and the
spec say such a failure is logged as a warning and treated as an absent
version.  Only `raise_for_status` (4xx/5xx) and JSON decoding failures are
caught and turned into `None`; a URL without `/autocomplete` short-circuits
to `None` without any request. -/
theorem get_version_exception_escapes :
    get_version ("http://h/autocomplete").data (fun _ => HttpOutcome.raised) =
      VersionOutcome.exn ∧
    get_version ("http://h/autocomplete").data
        (fun _ => HttpOutcome.ok ⟨500, true, some ['1']⟩) = .value none ∧
    get_version ("http://h/autocomplete").data
        (fun _ => HttpOutcome.ok ⟨200, false, none⟩) = .value none ∧
    get_version ("http://h/search").data (fun _ => HttpOutcome.raised) = .value none :=
  ⟨rfl, rfl, rfl, rfl⟩

/-- C6 (counterexample): with no URL provided as argument and none in the
configuration, `run_all` does raise — but only AFTER `_init_output_dir` has
created the run output directory, so the raise does not happen before every
side effect as the claim states. -/
theorem run_all_counterexample :
    run_all_start ⟨none, ("out").data, none⟩ none ("gt").data ("TS").data =
      .raised .attribute_error [.mkdir (("out/gt_TS").data)] := rfl

/-- C6 (amended): when no URL is provided (neither as argument nor in
configuration, or configured empty) and no output directory exists yet,
`run_all` raises — but only after creating the run output directory, since
`_init_output_dir` runs before the URL check. -/
theorem run_all_no_url_raises_after_mkdir (ctx : RunCtx) (name ts : Chars)
    (hdir : ctx.output_dir = none) (hurl : ctx.url = none ∨ ctx.url = some []) :
    ∃ e, run_all_start ctx none name ts =
      .raised e [.mkdir (ctx.base_output_dir ++ '/' :: name ++ '_' :: ts)] := by
  obtain ⟨od, bod, u⟩ := ctx
  simp only at hdir hurl
  subst hdir
  rcases hurl with h | h <;> subst h <;>
    exact ⟨_, rfl⟩

/-- Witness for the amended C6 at a concrete configuration. -/
theorem run_all_no_url_raises_after_mkdir_witness :
    ∃ e, run_all_start ⟨none, ("base").data, some []⟩ none ("n").data ("T").data =
      .raised e [.mkdir (("base/n_T").data)] :=
  run_all_no_url_raises_after_mkdir ⟨none, ("base").data, some []⟩ ("n").data ("T").data rfl
    (Or.inr rfl)

/-- C7 (counterexample): rendering one record does not return the header
row first followed by the separator and the data row — the first returned
line is an empty string and the list has four lines, not three. -/
theorem pretty_print_counterexample :
    pretty_print [[("a", PyVal.str ['x'])]] ["a"] =
      [[], (' ' :: 'a' :: ' ' :: []), ('-' :: '-' :: '-' :: []), (' ' :: 'x' :: ' ' :: [])] ∧
    (pretty_print [[("a", PyVal.str ['x'])]] ["a"]).length = 4 ∧
    (pretty_print [[("a", PyVal.str ['x'])]] ["a"]).head? = some [] := by
  refine ⟨rfl, rfl, rfl⟩

/-- C7 (amended): rendering zero records yields an empty line list;
rendering a non-empty record list yields an empty line, then a header row
of column names, then a separator row of dashes, then exactly one row per
record, and every column's width is at least the length of its header plus
2. -/
theorem pretty_print_shape (dicts : List Dict) (keys : List String) (h : dicts ≠ []) :
    pretty_print [] keys = [] ∧
    pretty_print dicts keys =
      [] :: header_row dicts keys :: sep_row dicts keys :: dicts.map (row_line dicts keys) ∧
    (pretty_print dicts keys).length = 3 + dicts.length ∧
    ∀ k ∈ keys, k.length + 2 ≤ colWidth dicts k := by
  refine ⟨rfl, ?_, ?_, fun k _ => colWidth_ge dicts k⟩
  · unfold pretty_print
    rw [if_neg (by simpa using h)]
    rw [foldl_append_rows (row_line dicts keys) dicts]
    simp
  · unfold pretty_print
    rw [if_neg (by simpa using h)]
    rw [foldl_append_rows (row_line dicts keys) dicts]
    simp
    omega

/-- Witness for the amended C7 at a concrete record list. -/
theorem pretty_print_shape_witness :
    pretty_print [] ["a"] = [] ∧
    pretty_print [[("a", PyVal.str ['x'])]] ["a"] =
      [] :: header_row [[("a", PyVal.str ['x'])]] ["a"] ::
        sep_row [[("a", PyVal.str ['x'])]] ["a"] ::
        [[("a", PyVal.str ['x'])]].map (row_line [[("a", PyVal.str ['x'])]] ["a"]) ∧
    (pretty_print [[("a", PyVal.str ['x'])]] ["a"]).length = 3 + 1 ∧
    ∀ k ∈ ["a"], k.length + 2 ≤ colWidth [[("a", PyVal.str ['x'])]] k := by
  have h := pretty_print_shape [[("a", PyVal.str ['x'])]] ["a"] (by simp)
  exact ⟨h.1, h.2.1, h.2.2.1, h.2.2.2⟩

/-- C8 (counterexample): for a catch-remaining category that itself carries
a selector, the computed selector negates its own selector too — it is the
conjunction over ALL categories having a selector, not over every OTHER
category as the claim states. -/
theorem remaining_selector_counterexample :
    get_remaining_tests [⟨['A'], some ['a'], false⟩, ⟨['R'], some ['b'], true⟩] =
      ("not a and not b").data ∧
    spec_remaining_selector [⟨['A'], some ['a'], false⟩, ⟨['R'], some ['b'], true⟩] 1 =
      ("not a").data ∧
    selector_for [⟨['A'], some ['a'], false⟩, ⟨['R'], some ['b'], true⟩]
        ⟨['R'], some ['b'], true⟩ = some (("not a and not b").data) ∧
    ("not a and not b").data ≠ ("not a").data := by
  refine ⟨rfl, rfl, rfl, by decide⟩

/-- C8 (amended): the selector computed for a catch-remaining category is
the conjunction, joined with ` and `, of `not S` over every category that
has a selector (including the marked category's own, if it has one); when
the marked category carries no selector of its own this coincides with the
conjunction over every other category, and in particular for
`[{selector: a}, {selector: b}, {remaining_tests: true}]` it equals
`not a and not b`.  A category not so marked uses its own selector
verbatim. -/
theorem selector_computation (cats : List TestCategory) (c : TestCategory) (i : Nat) :
    (c.remaining_tests = true → selector_for cats c = some (get_remaining_tests cats)) ∧
    (c.remaining_tests = false → selector_for cats c = c.selector) ∧
    (cats[i]? = some c → c.remaining_tests = true → c.selector = none →
      selector_for cats c = some (spec_remaining_selector cats i)) ∧
    get_remaining_tests
        [⟨['A'], some ['a'], false⟩, ⟨['B'], some ['b'], false⟩, ⟨['R'], none, true⟩] =
      ("not a and not b").data := by
  refine ⟨fun h => by simp [selector_for, h], fun h => by simp [selector_for, h],
    fun hget hrem hsel => ?_, rfl⟩
  simp only [selector_for, hrem, if_pos]
  unfold get_remaining_tests spec_remaining_selector
  rw [filterMap_selector_eraseIdx cats i c hget hsel]

/-- Witness for the amended C8 at the categories of the claim. -/
theorem selector_computation_witness :
    selector_for
        [⟨['A'], some ['a'], false⟩, ⟨['B'], some ['b'], false⟩, ⟨['R'], none, true⟩]
        ⟨['R'], none, true⟩ =
      some (spec_remaining_selector
        [⟨['A'], some ['a'], false⟩, ⟨['B'], some ['b'], false⟩, ⟨['R'], none, true⟩] 2) ∧
    selector_for
        [⟨['A'], some ['a'], false⟩, ⟨['B'], some ['b'], false⟩, ⟨['R'], none, true⟩]
        ⟨['B'], some ['b'], false⟩ = some ['b'] := by
  have h := selector_computation
    [⟨['A'], some ['a'], false⟩, ⟨['B'], some ['b'], false⟩, ⟨['R'], none, true⟩]
    ⟨['R'], none, true⟩ 2
  have h2 := selector_computation
    [⟨['A'], some ['a'], false⟩, ⟨['B'], some ['b'], false⟩, ⟨['R'], none, true⟩]
    ⟨['B'], some ['b'], false⟩ 1
  exact ⟨h.2.2.1 rfl rfl rfl, h2.2.1 rfl⟩

theorem get_results_go_skip (base : Dict) :
    ∀ (pre rest : List Chars), (∀ x ∈ pre, result_line_match x = false) →
      get_results_go base (pre ++ rest) = get_results_go base rest
  | [], _, _ => rfl
  | l :: pre, rest, h => by
    have hl := h l (by simp)
    simp only [List.cons_append, get_results_go, hl, Bool.false_eq_true, if_false]
    exact get_results_go_skip base pre rest (fun x hx => h x (by simp [hx]))

theorem get_results_go_none (base : Dict) :
    ∀ (lines : List Chars), (∀ x ∈ lines, result_line_match x = false) →
      get_results_go base lines = .ok base
  | [], _ => rfl
  | l :: lines, h => by
    have hl := h l (by simp)
    simp only [get_results_go, hl, Bool.false_eq_true, if_false]
    exact get_results_go_none base lines (fun x hx => h x (by simp [hx]))

/-- C2: the Result Extractor scans the split output from the last line
backward; the first line of that backward scan accepted by
`RESULT_LINE_PATTERN` is the one parsed and merged into the
`{region, category}` record (lines scanned before it — later in the
output — must all be non-banners, lines after it are ignored), so the
result is exactly the parser's outcome on that line mapped through the
merge — including the propagation of an exception the parser raises on it
— and when no line of the output is a banner the result is exactly
`{region, category}` with no other fields. -/
theorem get_results_backward_scan (region category logs : Chars) :
    (∀ pre l post, (splitNl logs).reverse = pre ++ l :: post →
      (∀ x ∈ pre, result_line_match x = false) → result_line_match l = true →
      get_results region category logs =
        (parse_log_line l).map
          (fun dd => dupdate [("region", .str region), ("category", .str category)] dd)) ∧
    ((∀ x ∈ splitNl logs, result_line_match x = false) →
      get_results region category logs =
        .ok [("region", .str region), ("category", .str category)]) := by
  constructor
  · intro pre l post hdec hpre hl
    unfold get_results
    rw [hdec, get_results_go_skip _ pre _ hpre]
    simp [get_results_go, hl]
  · intro h
    unfold get_results
    exact get_results_go_none _ _ (fun x hx => h x (List.mem_reverse.mp hx))

/-- Witness for C2: a banner between junk lines is merged; a banner whose
seconds overflow the timedelta range makes the extractor propagate the
parser's exception; a banner-free output returns the bare record. -/
theorem get_results_backward_scan_witness :
    get_results ("fr").data ("addr").data
        ("junk\n=== 1 passed in 1 seconds ===\ntail").data =
      (parse_log_line (("=== 1 passed in 1 seconds ===").data)).map
        (fun dd => dupdate [("region", .str ("fr").data), ("category", .str ("addr").data)] dd) ∧
    get_results ("fr").data ("addr").data
        ("junk\n=== 1 passed in inf seconds ===\ntail").data =
      .error .overflowError ∧
    get_results ("fr").data ("addr").data ("no banner\nat all").data =
      .ok [("region", .str ("fr").data), ("category", .str ("addr").data)] := by
  refine ⟨?_, ?_, ?_⟩
  · exact (get_results_backward_scan ("fr").data ("addr").data
      ("junk\n=== 1 passed in 1 seconds ===\ntail").data).1
      [("tail").data] (("=== 1 passed in 1 seconds ===").data) [("junk").data]
      (by decide) (by decide) (by decide)
  · exact ((get_results_backward_scan ("fr").data ("addr").data
      ("junk\n=== 1 passed in inf seconds ===\ntail").data).1
      [("tail").data] (("=== 1 passed in inf seconds ===").data) [("junk").data]
      (by decide) (by decide) (by decide)).trans rfl
  · exact (get_results_backward_scan ("fr").data ("addr").data
      ("no banner\nat all").data).2 (by decide)

theorem dget_dremove_self : ∀ (d : Dict) (k : String), dget (dremove d k) k = none
  | [], _ => rfl
  | (k', v) :: rest, k => by
    simp only [dremove, List.filter_cons]
    by_cases h : k' = k
    · rw [if_neg (by simp [h])]
      exact dget_dremove_self rest k
    · rw [if_pos (by simp [h])]
      simp only [dget]
      rw [if_neg (by simp [h])]
      exact dget_dremove_self rest k

theorem dget_dremove_other : ∀ (d : Dict) (k k' : String), k' ≠ k →
    dget (dremove d k) k' = dget d k'
  | [], _, _, _ => rfl
  | (k₀, v) :: rest, k, k', h => by
    simp only [dremove, List.filter_cons]
    by_cases h0 : k₀ = k
    · rw [if_neg (by simp [h0])]
      show dget (dremove rest k) k' = dget ((k₀, v) :: rest) k'
      rw [dget_dremove_other rest k k' h]
      simp only [dget]
      rw [if_neg (by simp only [beq_iff_eq]; exact fun hkk => h (hkk ▸ h0))]
    · rw [if_pos (by simp [h0])]
      simp only [dget]
      rcases eq_or_ne k₀ k' with h1 | h1
      · rw [if_pos (by simp [h1]), if_pos (by simp [h1])]
      · rw [if_neg (by simp [h1]), if_neg (by simp [h1])]
        show dget (dremove rest k) k' = dget rest k'
        exact dget_dremove_other rest k k' h

theorem widthStep_dremove_failed (key : String) (acc : Nat) (d : Dict)
    (hd : dget d "failed" = some (.int 0)) (hacc : 2 ≤ acc) :
    widthStep key acc (dremove d "failed") = widthStep key acc d := by
  by_cases h : key = "failed"
  · subst h
    unfold widthStep
    rw [dget_dremove_self, hd]
    have h0 : (pyStr (Option.getD none (PyVal.str []))).length = 0 := rfl
    have h1 : (pyStr (Option.getD (some (PyVal.int 0)) (PyVal.str []))).length = 1 := rfl
    rw [h0, h1]
    rw [if_neg (by omega), if_neg (by omega)]
  · unfold widthStep
    rw [dget_dremove_other d _ _ h]

theorem colWidth_dremove_failed (pre post : List Dict) (d : Dict) (key : String)
    (hd : dget d "failed" = some (.int 0)) :
    colWidth (pre ++ dremove d "failed" :: post) key = colWidth (pre ++ d :: post) key := by
  unfold colWidth
  rw [List.foldl_append, List.foldl_append]
  simp only [List.foldl_cons]
  rw [widthStep_dremove_failed key _ d hd
    (le_trans (by omega) (foldl_widthStep_le key pre (key.length + 2)))]

theorem rowVal_dremove_failed (d : Dict) (k : String)
    (hd : dget d "failed" = some (.int 0)) :
    rowVal (dremove d "failed") k = rowVal d k := by
  by_cases h : k = "failed"
  · subst h
    unfold rowVal
    rw [dget_dremove_self, hd]
    rfl
  · unfold rowVal
    rw [dget_dremove_other d _ _ h]

theorem row_line_dicts_congr (dicts dicts' : List Dict) (keys : List String) (x : Dict)
    (h : ∀ k ∈ keys, colWidth dicts k = colWidth dicts' k) :
    row_line dicts keys x = row_line dicts' keys x := by
  unfold row_line
  exact congrArg _ (List.map_congr_left (fun k hk => by rw [h k hk]))

theorem header_row_dicts_congr (dicts dicts' : List Dict) (keys : List String)
    (h : ∀ k ∈ keys, colWidth dicts k = colWidth dicts' k) :
    header_row dicts keys = header_row dicts' keys := by
  unfold header_row
  exact congrArg _ (List.map_congr_left (fun k hk => by rw [h k hk]))

theorem sep_row_dicts_congr (dicts dicts' : List Dict) (keys : List String)
    (h : ∀ k ∈ keys, colWidth dicts k = colWidth dicts' k) :
    sep_row dicts keys = sep_row dicts' keys := by
  unfold sep_row
  exact congrArg _ (List.map_congr_left (fun k hk => by rw [h k hk]))

theorem row_line_dremove (dicts : List Dict) (keys : List String) (d : Dict)
    (hd : dget d "failed" = some (.int 0)) :
    row_line dicts keys (dremove d "failed") = row_line dicts keys d := by
  unfold row_line
  exact congrArg _ (List.map_congr_left (fun k _ => by rw [rowVal_dremove_failed d k hd]))

/-- C10: in the rendered table a record field that is present but falsy —
in particular the integer 0, the failed-count when every test passes — is
rendered as an underscore exactly as a missing field is, and the whole
rendered table is identical whether a record carries `failed = 0` or lacks
the `failed` field altogether. -/
theorem falsy_field_renders_underscore :
    (∀ (d : Dict) (k : String) (v : PyVal), dget d k = some v → pyTruthy v = false →
      rowVal d k = .str ['_']) ∧
    (∀ (d : Dict) (k : String), dget d k = none → rowVal d k = .str ['_']) ∧
    (∀ (keys : List String) (pre post : List Dict) (d : Dict),
      dget d "failed" = some (.int 0) →
      pretty_print (pre ++ d :: post) keys =
        pretty_print (pre ++ dremove d "failed" :: post) keys) := by
  refine ⟨fun d k v h1 h2 => by unfold rowVal; rw [h1]; simp [h2],
    fun d k h => by unfold rowVal; rw [h],
    fun keys pre post d hd => ?_⟩
  have hw : ∀ k ∈ keys, colWidth (pre ++ dremove d "failed" :: post) k =
      colWidth (pre ++ d :: post) k :=
    fun k _ => colWidth_dremove_failed pre post d k hd
  have hrow : ∀ x, row_line (pre ++ dremove d "failed" :: post) keys x =
      row_line (pre ++ d :: post) keys x :=
    fun x => row_line_dicts_congr _ _ keys x hw
  have hmap : (pre ++ d :: post).map (row_line (pre ++ d :: post) keys) =
      (pre ++ dremove d "failed" :: post).map
        (row_line (pre ++ dremove d "failed" :: post) keys) := by
    calc (pre ++ d :: post).map (row_line (pre ++ d :: post) keys)
        = (pre ++ d :: post).map (row_line (pre ++ dremove d "failed" :: post) keys) :=
          List.map_congr_left (fun x _ => (hrow x).symm)
      _ = (pre ++ dremove d "failed" :: post).map
            (row_line (pre ++ dremove d "failed" :: post) keys) := by
          simp only [List.map_append, List.map_cons]
          rw [row_line_dremove (pre ++ dremove d "failed" :: post) keys d hd]
  unfold pretty_print
  rw [if_neg (by simp), if_neg (by simp)]
  rw [foldl_append_rows _ _, foldl_append_rows _ _]
  rw [header_row_dicts_congr _ _ keys hw, sep_row_dicts_congr _ _ keys hw, hmap]

/-- Witness for C10: a one-record table with `failed = 0` renders exactly
as the table of the record lacking `failed`. -/
theorem falsy_field_renders_underscore_witness :
    rowVal [("failed", PyVal.int 0)] "failed" = .str ['_'] ∧
    rowVal [] "failed" = .str ['_'] ∧
    pretty_print [[("failed", PyVal.int 0)]] ["failed"] =
      pretty_print [dremove [("failed", PyVal.int 0)] "failed"] ["failed"] := by
  refine ⟨falsy_field_renders_underscore.1 [("failed", PyVal.int 0)] "failed"
      (PyVal.int 0) rfl rfl,
    falsy_field_renders_underscore.2.1 [] "failed" rfl,
    falsy_field_renders_underscore.2.2 ["failed"] [] [] [("failed", PyVal.int 0)] rfl⟩

/-- C3 (counterexample): a banner line whose seconds text cannot be parsed
does NOT yield an empty parse result — `=== 1 passed in abc seconds ===`
is accepted by `RESULT_LINE_PATTERN` and by `RESULT_PATTERN` (with time
group `abc`, which fails the float cast), yet the parser returns the full
four-field record and logs no error. -/
theorem parse_unparseable_seconds_counterexample :
    result_line_match (("=== 1 passed in abc seconds ===").data) = true ∧
    result_pattern_match (("=== 1 passed in abc seconds ===").data) =
      some ⟨none, some ['1'], ['a', 'b', 'c']⟩ ∧
    pyFloat ['a', 'b', 'c'] = none ∧
    parse_log_line (("=== 1 passed in abc seconds ===").data) =
      .ok [("failed", .int 0), ("total", .int 1),
        ("duration", .str (("None").data)), ("ratio", .str (("100%").data))] ∧
    ([("failed", PyVal.int 0), ("total", PyVal.int 1),
      ("duration", PyVal.str (("None").data)), ("ratio", PyVal.str (("100%").data))] : Dict)
      ≠ [] ∧
    parse_error_logged (("=== 1 passed in abc seconds ===").data) = false := by
  refine ⟨rfl, rfl, rfl, rfl, by decide, rfl⟩

/-- C3 (amended): the Summary Parser returns an empty result and logs an
error exactly when the line fails to match `RESULT_PATTERN` (which is
neither implied by nor implies failing the banner classifier); a matching
line never logs the error and yields the full four-field record whenever
the duration step succeeds (seconds absent, unparseable, zero, or
representable in a timedelta — so in particular a banner line with
unparseable seconds yields a non-empty record), but the parser DOES raise
— `OverflowError` or `ValueError`, propagated from the unguarded
`timedelta` construction — when the parsed seconds are infinite, NaN or
beyond the timedelta range. -/
theorem parse_log_line_empty_iff (line : Chars) :
    (result_pattern_match line = none →
      parse_log_line line = .ok [] ∧ parse_error_logged line = true) ∧
    (∀ g, result_pattern_match line = some g →
      parse_error_logged line = false ∧
      (∀ s, durationStr (pyFloat g.time) = .ok s →
        ∃ dd, parse_log_line line = .ok dd ∧
          dd.map Prod.fst = ["failed", "total", "duration", "ratio"] ∧ dd ≠ []) ∧
      (∀ e, durationStr (pyFloat g.time) = .error e →
        parse_log_line line = .error e)) := by
  constructor
  · intro h
    unfold parse_log_line parse_error_logged
    rw [h]
    exact ⟨rfl, rfl⟩
  · intro g h
    refine ⟨?_, fun s hs => ?_, fun e he => ?_⟩
    · unfold parse_error_logged
      rw [h]
      rfl
    · unfold parse_log_line
      rw [h]
      dsimp only
      rw [hs]
      exact ⟨_, rfl, rfl, by simp⟩
    · unfold parse_log_line
      rw [h]
      dsimp only
      rw [he]

/-- Witness for the amended C3: a non-matching line, a matching line with
unparseable seconds, and a matching line with infinite seconds that makes
the parser raise. -/
theorem parse_log_line_empty_iff_witness :
    (parse_log_line ("hello").data = .ok [] ∧
      parse_error_logged ("hello").data = true) ∧
    (∃ dd, parse_log_line (("=== 2 failed in zz seconds ===").data) = .ok dd ∧
      dd.map Prod.fst = ["failed", "total", "duration", "ratio"] ∧ dd ≠ []) ∧
    parse_log_line (("=== 1 passed in inf seconds ===").data) =
      .error .overflowError := by
  refine ⟨(parse_log_line_empty_iff ("hello").data).1 rfl, ?_, ?_⟩
  · exact ((parse_log_line_empty_iff (("=== 2 failed in zz seconds ===").data)).2
      ⟨some ['2'], none, ['z', 'z']⟩ rfl).2.1 (("None").data) rfl
  · exact ((parse_log_line_empty_iff (("=== 1 passed in inf seconds ===").data)).2
      ⟨none, some ['1'], ('i' :: 'n' :: 'f' :: [])⟩ rfl).2.2 .overflowError rfl

theorem startsW_self_append : ∀ (p r : Chars), startsW p (p ++ r) = true
  | [], _ => rfl
  | c :: p, r => by simp [startsW, startsW_self_append p r]

theorem all_digits_of_dropWhile_nil (r : Chars)
    (h : r.dropWhile (fun c => c.isDigit) = []) : ∀ c ∈ r, c.isDigit = true := by
  intro c hc
  have hsplit := List.takeWhile_append_dropWhile (p := fun c => c.isDigit) (l := r)
  rw [h, List.append_nil] at hsplit
  rw [← hsplit] at hc
  exact List.mem_takeWhile_imp hc

/-- C9 (counterexample): the spec says a summary line whose match carries
neither clause yields the zero record, but the seconds text still drives
the unguarded `timedelta` construction: the line
`===== no tests ran in inf seconds =====` matches with both clauses
absent, its captured seconds `inf` parse to an infinity, and the parser
raises `OverflowError` instead of returning the record. -/
theorem no_clause_overflow_counterexample :
    result_pattern_match (("===== no tests ran in inf seconds =====").data) =
      some ⟨none, none, ('i' :: 'n' :: 'f' :: [])⟩ ∧
    pyFloat ('i' :: 'n' :: 'f' :: []) = some (.infinite false) ∧
    parse_log_line (("===== no tests ran in inf seconds =====").data) =
      .error .overflowError := by
  exact ⟨rfl, rfl, rfl⟩

/-- C9 (amended): a summary line whose match carries neither a failed
clause nor a passed clause and whose parse RETURNS (the duration step can
raise instead) yields `failed = 0`, `total = 0`, `ratio = 0%`; in
particular the lines `===== no tests ran in 1 seconds =====` and
`===== 1 deselected in 1 seconds =====` parse to exactly that record. -/
theorem no_clause_lines_parse_zero :
    (∀ line t dd, result_pattern_match line = some ⟨none, none, t⟩ →
      parse_log_line line = .ok dd →
      dget dd "failed" = some (.int 0) ∧
      dget dd "total" = some (.int 0) ∧
      dget dd "ratio" = some (.str ('0' :: '%' :: []))) ∧
    parse_log_line (("===== no tests ran in 1 seconds =====").data) =
      .ok [("failed", .int 0), ("total", .int 0),
        ("duration", .str (("0:00:01").data)), ("ratio", .str (("0%").data))] ∧
    parse_log_line (("===== 1 deselected in 1 seconds =====").data) =
      .ok [("failed", .int 0), ("total", .int 0),
        ("duration", .str (("0:00:01").data)), ("ratio", .str (("0%").data))] := by
  refine ⟨fun line t dd h hok => ?_, rfl, rfl⟩
  unfold parse_log_line at hok
  rw [h] at hok
  dsimp only at hok
  cases hd : durationStr (pyFloat t) with
  | error e =>
    rw [hd] at hok
    simp at hok
  | ok s =>
    rw [hd] at hok
    dsimp only at hok
    injection hok with h2
    subst h2
    exact ⟨rfl, rfl, rfl⟩

/-- Witness for C9 applied to the no-tests-ran line. -/
theorem no_clause_lines_parse_zero_witness :
    dget [("failed", PyVal.int 0), ("total", PyVal.int 0),
        ("duration", PyVal.str (("0:00:01").data)),
        ("ratio", PyVal.str (("0%").data))] "failed" = some (.int 0) ∧
    dget [("failed", PyVal.int 0), ("total", PyVal.int 0),
        ("duration", PyVal.str (("0:00:01").data)),
        ("ratio", PyVal.str (("0%").data))] "total" = some (.int 0) ∧
    dget [("failed", PyVal.int 0), ("total", PyVal.int 0),
        ("duration", PyVal.str (("0:00:01").data)),
        ("ratio", PyVal.str (("0%").data))] "ratio" =
      some (.str ('0' :: '%' :: [])) :=
  no_clause_lines_parse_zero.1 (("===== no tests ran in 1 seconds =====").data) ['1']
    [("failed", .int 0), ("total", .int 0),
      ("duration", .str (("0:00:01").data)), ("ratio", .str (("0%").data))] rfl rfl

end DockerMimir
